import Mathlib

/-!
Verification of the bounty recommendation and behavior-blending engine.

The definitions below are a shallow embedding of the TypeScript services
`packages/api/src/services/recommendation.ts` and
`packages/api/src/services/behavior.ts`, together with the mutual-graph
expansion helper `getMutualsThreeLayers` of the API router.  Numbers are
modelled as rationals, JS `Map`s as association lists (keys are unique in
every state the code builds, and `Map` lookup is modelled by the last
binding to honour JS `Map` construction semantics where later entries
overwrite earlier ones).
-/

namespace RecEngine

/-- Scoring weight for tag relevance (source constant WEIGHTS.RELEVANCE). -/
def WEIGHTS_RELEVANCE : ℚ := 0.55

/-- Scoring weight for social proof (source constant WEIGHTS.SOCIAL). -/
def WEIGHTS_SOCIAL : ℚ := 0.15

/-- Scoring weight for price affinity (source constant WEIGHTS.PRICE). -/
def WEIGHTS_PRICE : ℚ := 0.20

/-- Scoring weight for popularity (source constant WEIGHTS.ENGAGEMENT). -/
def WEIGHTS_ENGAGEMENT : ℚ := 0.10

/-- Minimum relevance score a bounty needs to stay in the feed. -/
def MIN_RELEVANCE_THRESHOLD : ℚ := 3.0

/-- Access/pricing tier of users and bounties. -/
inductive Tier where
  | basic
  | middle
  | high
deriving DecidableEq, Repr

/-- Numeric tier levels, the source's `tierOrder` record. -/
def tierOrder : Tier → ℕ
  | Tier.basic => 1
  | Tier.middle => 2
  | Tier.high => 3

/-- An explicit, user-declared skill score (source interface UserTagScore). -/
structure UserTagScore where
  tagId : ℕ
  tagName : String
  score : ℚ
deriving DecidableEq, Repr

/-- Per-user profile fields the scorer reads (source interface UserProfile). -/
structure UserProfile where
  avgPriceViewed : ℚ
  engagementScore : ℚ
  accessTier : Tier
deriving DecidableEq, Repr

/-- A (possibly derived) social connection (source interface MutualConnection). -/
structure MutualConnection where
  mutualId : String
  layer : ℕ
  strength : ℚ
deriving DecidableEq, Repr

/-- The per-request user snapshot (source interface RecommendationInput). -/
structure RecommendationInput where
  userId : String
  userTags : List UserTagScore
  userProfile : UserProfile
  mutuals : List MutualConnection
deriving DecidableEq, Repr

/-- A weighted tag on a bounty (source interface BountyTag). -/
structure BountyTag where
  tagId : ℕ
  weight : ℚ
deriving DecidableEq, Repr

/-- A bounty row (source interface BountyData; timestamps as integers). -/
structure BountyData where
  id : ℕ
  title : String
  description : String
  price : ℚ
  tier : Tier
  status : String
  views : ℕ
  submissions : ℕ
  likes : ℕ
  engagementScore : ℚ
  creatorId : Option String
  claimedById : Option String
  createdAt : ℤ
  updatedAt : ℤ
  expiresAt : Option ℤ
  completedAt : Option ℤ
deriving DecidableEq, Repr

/-- A bounty together with its sub-scores (source interface ScoredBounty). -/
structure ScoredBounty where
  bounty : BountyData
  relevanceScore : ℚ
  socialBoost : ℚ
  priceAffinity : ℚ
  finalScore : ℚ
deriving DecidableEq, Repr

/-- Diagnostic counters returned with a recommendation. -/
structure DebugInfo where
  totalCandidates : ℕ
  filteredByTier : ℕ
  filteredByRelevance : ℕ
  topRelevanceScores : List ℚ
deriving DecidableEq, Repr

/-- The two picks plus debug counters (source interface RecommendationOutput). -/
structure RecommendationOutput where
  primary : ScoredBounty
  secondary : ScoredBounty
  debug : DebugInfo
deriving DecidableEq, Repr

/-- `bountyTagMap.get(id) || []`: first (unique-key) binding of the map. -/
def lookupTags (btm : List (ℕ × List BountyTag)) (i : ℕ) : List BountyTag :=
  match btm.find? (fun p => p.1 == i) with
  | some p => p.2
  | none => []

/-- `mutualInteractions.get(mutualId) || []`. -/
def lookupInteractions (mi : List (String × List ℕ)) (uid : String) : List ℕ :=
  match mi.find? (fun p => p.1 == uid) with
  | some p => p.2
  | none => []

/-- The user tag map built by `new Map(userTags.map(t => [t.tagId, t.score]))`:
later entries overwrite earlier ones, absent keys read as 0. -/
def userTagScoreOf (userTags : List UserTagScore) (g : ℕ) : ℚ :=
  match userTags.reverse.find? (fun t => t.tagId == g) with
  | some t => t.score
  | none => 0

/-- The loop accumulator `totalScore` of computeRelevanceScore. -/
def totalRelScore (userTags : List UserTagScore) (bountyTags : List BountyTag) : ℚ :=
  (bountyTags.map (fun bt => userTagScoreOf userTags bt.tagId * bt.weight)).sum

/-- The loop accumulator `totalWeight` of computeRelevanceScore. -/
def totalRelWeight (bountyTags : List BountyTag) : ℚ :=
  (bountyTags.map (fun bt => bt.weight)).sum

/-- Source function computeRelevanceScore: weighted average of the user's
scores over the bounty's tags, rescaled by 2 to a 0-10 range. -/
def computeRelevanceScore (userTags : List UserTagScore) (bountyTags : List BountyTag) : ℚ :=
  if bountyTags = [] then 0
  else if 0 < totalRelWeight bountyTags then
    totalRelScore userTags bountyTags / totalRelWeight bountyTags * 2
  else 0

/-- Layer decay multiplier `1 / Math.pow(2, mutual.layer - 1)`. -/
def layerMultiplier (layer : ℕ) : ℚ := 1 / 2 ^ (layer - 1)

/-- One iteration of the computeSocialBoost loop. -/
def socialTerm (bountyId : ℕ) (mi : List (String × List ℕ)) (m : MutualConnection) : ℚ :=
  if bountyId ∈ lookupInteractions mi m.mutualId then m.strength * layerMultiplier m.layer
  else 0

/-- The uncapped running total of computeSocialBoost. -/
def rawSocialBoost (bountyId : ℕ) (mutuals : List MutualConnection)
    (mi : List (String × List ℕ)) : ℚ :=
  (mutuals.map (socialTerm bountyId mi)).sum

/-- Source function computeSocialBoost: decayed strengths of interacting
mutuals, capped at 2.0. -/
def computeSocialBoost (bountyId : ℕ) (mutuals : List MutualConnection)
    (mi : List (String × List ℕ)) : ℚ :=
  min (rawSocialBoost bountyId mutuals mi) 2

/-- Source function computePriceHistoryScore. -/
def computePriceHistoryScore (bountyPrice avgPriceViewed : ℚ) : ℚ :=
  if avgPriceViewed ≤ 0 then 0.5
  else if 0.5 ≤ bountyPrice / avgPriceViewed ∧ bountyPrice / avgPriceViewed ≤ 2.0 then 1.0
  else if bountyPrice / avgPriceViewed < 0.5 then max 0.1 (bountyPrice / avgPriceViewed * 2)
  else max 0.2 (2.0 / (bountyPrice / avgPriceViewed))

/-- Source function computePriceAffinityTierAware. -/
def computePriceAffinityTierAware (bountyPrice : ℚ) (bountyTier : Tier)
    (avgPriceViewed : ℚ) (userAccessTier : Tier) : ℚ :=
  if avgPriceViewed ≤ 0 then
    if bountyTier = userAccessTier then 0.8 else 0.5
  else
    let historyScore := computePriceHistoryScore bountyPrice avgPriceViewed
    let tierDiff : ℤ := (tierOrder userAccessTier : ℤ) - (tierOrder bountyTier : ℤ)
    let tierBonus : ℚ :=
      if tierDiff = 0 then 0.1
      else if tierDiff = 1 then 0
      else if 2 ≤ tierDiff then -0.1
      else 0
    max 0 (min 1 (historyScore + tierBonus))

/-- Source function filterByAccessTier: keep bounties at or below the user's
tier level. -/
def filterByAccessTier (bounties : List BountyData) (accessTier : Tier) : List BountyData :=
  bounties.filter (fun b => decide (tierOrder b.tier ≤ tierOrder accessTier))

/-- The per-bounty scoring block shared verbatim by getRecommendations
(step 2) and scoreAllBounties. -/
def scoreBounty (input : RecommendationInput) (btm : List (ℕ × List BountyTag))
    (mi : List (String × List ℕ)) (bounty : BountyData) : ScoredBounty :=
  let tags := lookupTags btm bounty.id
  let relevanceScore := computeRelevanceScore input.userTags tags
  let socialBoost := computeSocialBoost bounty.id input.mutuals mi
  let priceAffinity := computePriceAffinityTierAware bounty.price bounty.tier
    input.userProfile.avgPriceViewed input.userProfile.accessTier
  let normalizedEngagement := min (bounty.engagementScore / 10) 1
  { bounty := bounty
    relevanceScore := relevanceScore
    socialBoost := socialBoost
    priceAffinity := priceAffinity
    finalScore :=
      relevanceScore / 10 * WEIGHTS_RELEVANCE * 10 +
      socialBoost / 2 * WEIGHTS_SOCIAL * 10 +
      priceAffinity * WEIGHTS_PRICE * 10 +
      normalizedEngagement * WEIGHTS_ENGAGEMENT * 10 }

/-- Stable insertion step for the descending final-score sort (JS
`sort((a, b) => b.finalScore - a.finalScore)`, TimSort is stable). -/
def insertByFinalDesc (x : ScoredBounty) : List ScoredBounty → List ScoredBounty
  | [] => [x]
  | y :: ys =>
    if y.finalScore ≤ x.finalScore then x :: y :: ys
    else y :: insertByFinalDesc x ys

/-- Stable sort by final score, descending. -/
def sortByFinalDesc : List ScoredBounty → List ScoredBounty
  | [] => []
  | x :: xs => insertByFinalDesc x (sortByFinalDesc xs)

/-- Source function selectStretchBounty.  `scoredBounties[0]?.finalScore || 1`
reads as 1 when the list is empty or the top final score is 0 (JS
truthiness). -/
def selectStretchBounty (scoredBounties : List ScoredBounty) : Option ScoredBounty :=
  let topScore : ℚ :=
    match scoredBounties.head? with
    | some sb0 => if sb0.finalScore = 0 then 1 else sb0.finalScore
    | none => 1
  let stretchCandidates := scoredBounties.filter
    (fun sb => decide (sb.relevanceScore < 3.0 ∧ topScore * 0.2 < sb.finalScore))
  (sortByFinalDesc stretchCandidates).head?

/-- Step 1 of getRecommendations: tier-accessible bounties. -/
def accessibleOf (input : RecommendationInput) (allBounties : List BountyData) :
    List BountyData :=
  filterByAccessTier allBounties input.userProfile.accessTier

/-- Step 2 of getRecommendations: all accessible bounties, scored. -/
def allScoredOf (input : RecommendationInput) (allBounties : List BountyData)
    (btm : List (ℕ × List BountyTag)) (mi : List (String × List ℕ)) : List ScoredBounty :=
  (accessibleOf input allBounties).map (scoreBounty input btm mi)

/-- Step 3 of getRecommendations: the minimum-relevance filter. -/
def relFilteredOf (input : RecommendationInput) (allBounties : List BountyData)
    (btm : List (ℕ × List BountyTag)) (mi : List (String × List ℕ)) : List ScoredBounty :=
  (allScoredOf input allBounties btm mi).filter
    (fun sb => decide (MIN_RELEVANCE_THRESHOLD ≤ sb.relevanceScore))

/-- Source function getRecommendations.  `none` models the thrown
"No bounties available for recommendations" error. -/
def getRecommendations (input : RecommendationInput) (allBounties : List BountyData)
    (btm : List (ℕ × List BountyTag)) (mi : List (String × List ℕ)) :
    Option RecommendationOutput :=
  match sortByFinalDesc (relFilteredOf input allBounties btm mi) with
  | [] =>
    match sortByFinalDesc (allScoredOf input allBounties btm mi) with
    | [] => none
    | fb :: rest =>
      some
        { primary := fb
          secondary := rest.headD fb
          debug :=
            { totalCandidates := allBounties.length
              filteredByTier := (accessibleOf input allBounties).length
              filteredByRelevance := 0
              topRelevanceScores := ((fb :: rest).take 5).map (fun s => s.relevanceScore) } }
  | p :: rest =>
    some
      { primary := p
        secondary := (selectStretchBounty (p :: rest)).getD (rest.headD p)
        debug :=
          { totalCandidates := allBounties.length
            filteredByTier := (accessibleOf input allBounties).length
            filteredByRelevance := (p :: rest).length
            topRelevanceScores := ((p :: rest).take 5).map (fun s => s.relevanceScore) } }

/-- Source function scoreAllBounties (feed view). -/
def scoreAllBounties (input : RecommendationInput) (allBounties : List BountyData)
    (btm : List (ℕ × List BountyTag)) (mi : List (String × List ℕ))
    (applyRelevanceFilter : Bool) : List ScoredBounty :=
  if applyRelevanceFilter then relFilteredOf input allBounties btm mi
  else allScoredOf input allBounties btm mi

/-- Interaction event types feeding the behavior tracker. -/
inductive InteractionType where
  | view
  | like
  | submit
  | complete
deriving DecidableEq, Repr

/-- Source constant BEHAVIOR_WEIGHTS. -/
def BEHAVIOR_WEIGHTS : InteractionType → ℚ
  | InteractionType.view => 0.1
  | InteractionType.like => 0.2
  | InteractionType.submit => 0.3
  | InteractionType.complete => 0.4

/-- One userBehaviorTag row (per-user, per-tag counters and scores). -/
structure TagBehavior where
  tagId : ℕ
  viewCount : ℕ
  viewScore : ℚ
  likeCount : ℕ
  likeScore : ℚ
  submitCount : ℕ
  submitScore : ℚ
  completeCount : ℕ
  completeScore : ℚ
  implicitScore : ℚ
  lastExplicitScore : Option ℚ
  divergenceDetected : Bool
deriving DecidableEq, Repr

/-- Read the counter selected by `${interactionType}Count`. -/
def countOf (b : TagBehavior) : InteractionType → ℕ
  | InteractionType.view => b.viewCount
  | InteractionType.like => b.likeCount
  | InteractionType.submit => b.submitCount
  | InteractionType.complete => b.completeCount

/-- Read the score selected by `${interactionType}Score`. -/
def scoreOf (b : TagBehavior) : InteractionType → ℚ
  | InteractionType.view => b.viewScore
  | InteractionType.like => b.likeScore
  | InteractionType.submit => b.submitScore
  | InteractionType.complete => b.completeScore

/-- Write the counter and score selected by the event type. -/
def setCountScore (b : TagBehavior) (t : InteractionType) (n : ℕ) (s : ℚ) : TagBehavior :=
  match t with
  | InteractionType.view => { b with viewCount := n, viewScore := s }
  | InteractionType.like => { b with likeCount := n, likeScore := s }
  | InteractionType.submit => { b with submitCount := n, submitScore := s }
  | InteractionType.complete => { b with completeCount := n, completeScore := s }

/-- Source function computeImplicitTagScore: fixed-weight blend of the four
per-type scores, capped at 10. -/
def computeImplicitTagScore (b : TagBehavior) : ℚ :=
  min 10 (b.viewScore * 0.1 + b.likeScore * 0.2 + b.submitScore * 0.3 + b.completeScore * 0.4)

/-- The `existing` branch of updateTagBehavior: bump the event's counter,
recompute its score, then recompute implicitScore from the updated row. -/
def bumpTagBehavior (b : TagBehavior) (t : InteractionType) : TagBehavior :=
  let newCount := countOf b t + 1
  let newScore := min 10 ((newCount : ℚ) * BEHAVIOR_WEIGHTS t * 2)
  let updated := setCountScore b t newCount newScore
  { updated with implicitScore := computeImplicitTagScore updated }

/-- The insert branch of updateTagBehavior: fresh row with count 1, the
initial score `baseWeight * 2`, and implicitScore set to that same value. -/
def newTagBehavior (g : ℕ) (t : InteractionType) : TagBehavior :=
  let initialScore := BEHAVIOR_WEIGHTS t * 2
  setCountScore
    { tagId := g, viewCount := 0, viewScore := 0, likeCount := 0, likeScore := 0
      submitCount := 0, submitScore := 0, completeCount := 0, completeScore := 0
      implicitScore := initialScore, lastExplicitScore := none, divergenceDetected := false }
    t 1 initialScore

/-- The user's behavior-tag table, looked up by tag id (findFirst). -/
def lookupTagBehavior (tb : List TagBehavior) (g : ℕ) : Option TagBehavior :=
  tb.find? (fun b => b.tagId == g)

/-- Source function updateTagBehavior, on one user's rows: update the rows
matching the tag with values computed from the row found first, or insert a
fresh row. -/
def updateTagBehavior (tb : List TagBehavior) (g : ℕ) (t : InteractionType) :
    List TagBehavior :=
  match lookupTagBehavior tb g with
  | some b => tb.map (fun r => if r.tagId == g then bumpTagBehavior b t else r)
  | none => tb ++ [newTagBehavior g t]

/-- One userBehaviorPrice row. -/
structure PriceBehavior where
  avgPriceViewed : ℚ
  avgPriceLiked : ℚ
  avgPriceSubmitted : ℚ
  avgPriceCompleted : ℚ
  implicitPriceMin : Option ℚ
  implicitPriceMax : Option ℚ
deriving DecidableEq, Repr

/-- Read the rolling average selected by the event type. -/
def priceAvgOf (p : PriceBehavior) : InteractionType → ℚ
  | InteractionType.view => p.avgPriceViewed
  | InteractionType.like => p.avgPriceLiked
  | InteractionType.submit => p.avgPriceSubmitted
  | InteractionType.complete => p.avgPriceCompleted

/-- Write the rolling average selected by the event type. -/
def setPriceAvg (p : PriceBehavior) (t : InteractionType) (v : ℚ) : PriceBehavior :=
  match t with
  | InteractionType.view => { p with avgPriceViewed := v }
  | InteractionType.like => { p with avgPriceLiked := v }
  | InteractionType.submit => { p with avgPriceSubmitted := v }
  | InteractionType.complete => { p with avgPriceCompleted := v }

/-- Fold a list of rationals with `min`. -/
def listMin : List ℚ → Option ℚ
  | [] => none
  | x :: xs =>
    match listMin xs with
    | some m => some (min x m)
    | none => some x

/-- Fold a list of rationals with `max`. -/
def listMax : List ℚ → Option ℚ
  | [] => none
  | x :: xs =>
    match listMax xs with
    | some m => some (max x m)
    | none => some x

/-- Source function updatePriceBehavior: EMA update (alpha = 0.1) of the
event type's average and recomputation of the implicit price range. -/
def updatePriceBehavior (pb : Option PriceBehavior) (price : ℚ) (t : InteractionType) :
    Option PriceBehavior :=
  match pb with
  | none =>
    some
      { avgPriceViewed := if t = InteractionType.view then price else 0
        avgPriceLiked := if t = InteractionType.like then price else 0
        avgPriceSubmitted := if t = InteractionType.submit then price else 0
        avgPriceCompleted := if t = InteractionType.complete then price else 0
        implicitPriceMin := none
        implicitPriceMax := none }
  | some existing =>
    let currentAvg := priceAvgOf existing t
    let newAvg := if currentAvg = 0 then price else currentAvg * 0.9 + price * 0.1
    let updated := setPriceAvg existing t newAvg
    let allAvgs :=
      [updated.avgPriceViewed, updated.avgPriceLiked,
        updated.avgPriceSubmitted, updated.avgPriceCompleted].filter (fun v => decide (0 < v))
    some
      { updated with
        implicitPriceMin := (listMin allAvgs).map (fun v => v * 0.5)
        implicitPriceMax := (listMax allAvgs).map (fun v => v * 1.5) }

/-- One userBlendConfig row (the fields updateBlendConfig touches). -/
structure BlendConfig where
  explicitWeight : ℚ
  implicitWeight : ℚ
  totalInteractions : ℕ
deriving DecidableEq, Repr

/-- The piecewise weight recomputation of updateBlendConfig, as a function
of the new cumulative interaction count. -/
def blendWeightsFor (newTotal : ℕ) : ℚ × ℚ :=
  if 100 ≤ newTotal then (0.3, 0.7)
  else if 50 ≤ newTotal then (0.5, 0.5)
  else if 10 ≤ newTotal then
    (0.8 - ((newTotal : ℚ) - 10) / (50 - 10) * 0.3,
      0.2 + ((newTotal : ℚ) - 10) / (50 - 10) * 0.3)
  else (0.8, 0.2)

/-- Source function updateBlendConfig: bump the count and recompute both
blend weights. -/
def updateBlendConfig (c : BlendConfig) : BlendConfig :=
  let newTotal := c.totalInteractions + 1
  { c with
    totalInteractions := newTotal
    explicitWeight := (blendWeightsFor newTotal).1
    implicitWeight := (blendWeightsFor newTotal).2 }

/-- The explicit user-tag table, looked up by tag id.  JS `Map.get` on the
map built from the rows; `none` models `undefined`. -/
def explicitScoreOf (ex : List (ℕ × ℚ)) (g : ℕ) : Option ℚ :=
  match ex.reverse.find? (fun p => p.1 == g) with
  | some p => some p.2
  | none => none

/-- The per-row body of the checkDivergence loop.  `!explicitScore` is JS
truthiness: it holds when the tag is absent from the explicit profile or its
score is 0. -/
def divergeRecord (ex : List (ℕ × ℚ)) (b : TagBehavior) : TagBehavior :=
  match explicitScoreOf ex b.tagId with
  | none =>
    if 3 ≤ b.implicitScore then
      { b with divergenceDetected := true, lastExplicitScore := some 0 }
    else b
  | some s =>
    if s = 0 then
      if 3 ≤ b.implicitScore then
        { b with divergenceDetected := true, lastExplicitScore := some 0 }
      else b
    else if 4 ≤ s ∧ b.implicitScore < 1 then
      { b with divergenceDetected := true, lastExplicitScore := some s }
    else b

/-- Source function checkDivergence over one user's behavior-tag rows. -/
def checkDivergence (ex : List (ℕ × ℚ)) (tb : List TagBehavior) : List TagBehavior :=
  tb.map (divergeRecord ex)

/-- Source function clearDivergence: reset the flag for one tag. -/
def clearDivergence (tb : List TagBehavior) (g : ℕ) : List TagBehavior :=
  tb.map (fun r => if r.tagId == g then { r with divergenceDetected := false } else r)

/-- The per-user state trackBehavior reads and writes. -/
structure BehaviorState where
  tagBehaviors : List TagBehavior
  priceBehavior : Option PriceBehavior
  blendConfig : Option BlendConfig
deriving DecidableEq, Repr

/-- Source function trackBehavior for one recorded event: update every tag
carried by the bounty, the price behavior, the blend config, then run the
divergence check.  `ex` is the user's explicit tag table, `bountyTagIds` the
bounty's tags, `price` its price. -/
def trackBehavior (ex : List (ℕ × ℚ)) (bountyTagIds : List ℕ) (price : ℚ)
    (t : InteractionType) (st : BehaviorState) : BehaviorState :=
  let tagBehaviors1 := bountyTagIds.foldl (fun tb g => updateTagBehavior tb g t) st.tagBehaviors
  { tagBehaviors := checkDivergence ex tagBehaviors1
    priceBehavior := updatePriceBehavior st.priceBehavior price t
    blendConfig := st.blendConfig.map updateBlendConfig }

/-- One row of the mutual (social edge) table. -/
structure MutualEdge where
  userId : String
  mutualId : String
  layer : ℕ
  strength : ℚ
deriving DecidableEq, Repr

/-- Stored edges whose source is the requesting user (layer 1). -/
def layer1Edges (u : String) (edges : List MutualEdge) : List MutualEdge :=
  edges.filter (fun e => e.userId == u)

/-- Ids of the direct mutuals. -/
def layer1Ids (u : String) (edges : List MutualEdge) : List String :=
  (layer1Edges u edges).map (fun e => e.mutualId)

/-- The layer-2 SQL fetch: edges out of any layer-1 id, not pointing back at
the user. -/
def layer2RawEdges (u : String) (edges : List MutualEdge) : List MutualEdge :=
  edges.filter (fun e => decide (e.userId ∈ layer1Ids u edges ∧ e.mutualId ≠ u))

/-- The layer-2 loop: skip ids already in layer 1 (and the user), decay
strength by 0.5.  The loop does not deduplicate within layer 2 itself. -/
def layer2Entries (u : String) (edges : List MutualEdge) : List MutualConnection :=
  ((layer2RawEdges u edges).filter
      (fun e => decide (e.mutualId ∉ layer1Ids u edges ∧ e.mutualId ≠ u))).map
    (fun e => { mutualId := e.mutualId, layer := 2, strength := e.strength * 0.5 })

/-- The contents of the `layer2Ids` set after the layer-2 loop. -/
def layer2IdsOf (u : String) (edges : List MutualEdge) : List String :=
  (layer2Entries u edges).map (fun m => m.mutualId)

/-- The layer-3 SQL fetch: edges out of any layer-2 id, not pointing back at
the user. -/
def layer3RawEdges (u : String) (edges : List MutualEdge) : List MutualEdge :=
  edges.filter (fun e => decide (e.userId ∈ layer2IdsOf u edges ∧ e.mutualId ≠ u))

/-- The layer-3 loop: skip ids in layers 1 and 2 (and the user), decay
strength by 0.25. -/
def layer3Entries (u : String) (edges : List MutualEdge) : List MutualConnection :=
  ((layer3RawEdges u edges).filter
      (fun e => decide (e.mutualId ∉ layer1Ids u edges ∧
        e.mutualId ∉ layer2IdsOf u edges ∧ e.mutualId ≠ u))).map
    (fun e => { mutualId := e.mutualId, layer := 3, strength := e.strength * 0.25 })

/-- Source function getMutualsThreeLayers: early return when the user has no
direct mutuals, else layers 1, 2 and 3 concatenated in discovery order. -/
def getMutualsThreeLayers (u : String) (edges : List MutualEdge) : List MutualConnection :=
  if layer1Edges u edges = [] then []
  else
    ((layer1Edges u edges).map
        (fun e => { mutualId := e.mutualId, layer := 1, strength := e.strength })) ++
      layer2Entries u edges ++ layer3Entries u edges

/-! ## Lemmas about the descending sort -/

theorem insertByFinalDesc_ne_nil (x : ScoredBounty) (l : List ScoredBounty) :
    insertByFinalDesc x l ≠ [] := by
  cases l with
  | nil => simp [insertByFinalDesc]
  | cons y ys =>
    simp only [insertByFinalDesc]
    split <;> simp

theorem mem_insertByFinalDesc (x z : ScoredBounty) (l : List ScoredBounty) :
    z ∈ insertByFinalDesc x l ↔ z = x ∨ z ∈ l := by
  induction l with
  | nil => simp [insertByFinalDesc]
  | cons y ys ih =>
    simp only [insertByFinalDesc]
    split
    · simp [List.mem_cons]
    · simp only [List.mem_cons, ih]
      tauto

theorem mem_sortByFinalDesc (z : ScoredBounty) (l : List ScoredBounty) :
    z ∈ sortByFinalDesc l ↔ z ∈ l := by
  induction l with
  | nil => simp [sortByFinalDesc]
  | cons y ys ih =>
    simp only [sortByFinalDesc, mem_insertByFinalDesc, List.mem_cons, ih]

theorem sortByFinalDesc_eq_nil_iff (l : List ScoredBounty) :
    sortByFinalDesc l = [] ↔ l = [] := by
  cases l with
  | nil => simp [sortByFinalDesc]
  | cons y ys =>
    simp only [sortByFinalDesc]
    constructor
    · intro h
      exact absurd h (insertByFinalDesc_ne_nil _ _)
    · intro h
      exact absurd h (by simp)

theorem sortByFinalDesc_head_max (l : List ScoredBounty) (p : ScoredBounty)
    (rest : List ScoredBounty) (h : sortByFinalDesc l = p :: rest) :
    ∀ z ∈ l, z.finalScore ≤ p.finalScore := by
  induction l generalizing p rest with
  | nil => simp [sortByFinalDesc] at h
  | cons x xs ih =>
    intro z hz
    simp only [sortByFinalDesc] at h
    cases hs : sortByFinalDesc xs with
    | nil =>
      have hxs : xs = [] := (sortByFinalDesc_eq_nil_iff xs).1 hs
      subst hxs
      rw [hs] at h
      simp only [insertByFinalDesc] at h
      injection h with h1 h2
      subst h1
      simp only [List.mem_singleton] at hz
      subst hz
      exact le_refl _
    | cons y ys =>
      rw [hs] at h
      simp only [insertByFinalDesc] at h
      by_cases hle : y.finalScore ≤ x.finalScore
      · rw [if_pos hle] at h
        injection h with h1 h2
        subst h1
        rcases List.mem_cons.1 hz with hzx | hzxs
        · subst hzx; exact le_refl _
        · exact le_trans (ih y ys hs z hzxs) hle
      · rw [if_neg hle] at h
        injection h with h1 h2
        subst h1
        rcases List.mem_cons.1 hz with hzx | hzxs
        · subst hzx; exact le_of_lt (lt_of_not_le hle)
        · exact ih y ys hs z hzxs

/-! ## C5: blend weight recomputation -/

/-- Claim C5: the recomputed blend weights follow the four-segment piecewise
function (flat 0.8/0.2 below 10 interactions, linear interpolation to
0.5/0.5 between 10 and 50, flat 0.5/0.5 up to 100, flat 0.3/0.7 from 100 on,
with 30 interactions giving exactly 0.65/0.35), and the two weights always
sum to 1. -/
theorem blendWeights_piecewise (n : ℕ) :
    (n < 10 → blendWeightsFor n = (0.8, 0.2)) ∧
    (10 ≤ n → n < 50 →
      blendWeightsFor n =
        (0.8 - ((n : ℚ) - 10) / 40 * 0.3, 0.2 + ((n : ℚ) - 10) / 40 * 0.3)) ∧
    blendWeightsFor 30 = (0.65, 0.35) ∧
    (50 ≤ n → n < 100 → blendWeightsFor n = (0.5, 0.5)) ∧
    (100 ≤ n → blendWeightsFor n = (0.3, 0.7)) ∧
    (blendWeightsFor n).1 + (blendWeightsFor n).2 = 1 := by
  refine ⟨?_, ?_, ?_, ?_, ?_, ?_⟩
  · intro h
    rw [blendWeightsFor, if_neg (by omega), if_neg (by omega), if_neg (by omega)]
  · intro h1 h2
    rw [blendWeightsFor, if_neg (by omega), if_neg (by omega), if_pos h1]
    norm_num
  · norm_num [blendWeightsFor]
  · intro h1 h2
    rw [blendWeightsFor, if_neg (by omega), if_pos h1]
  · intro h
    rw [blendWeightsFor, if_pos h]
  · rw [blendWeightsFor]
    split_ifs <;> norm_num

/-- Witness for blendWeights_piecewise at the interpolation point n = 30. -/
theorem blendWeights_piecewise_witness :
    (10 ≤ 30 ∧ 30 < 50) ∧ blendWeightsFor 30 = (0.65, 0.35) ∧
      (blendWeightsFor 30).1 + (blendWeightsFor 30).2 = 1 :=
  ⟨⟨by norm_num, by norm_num⟩, (blendWeights_piecewise 30).2.2.1,
    (blendWeights_piecewise 30).2.2.2.2.2⟩

/-! ## C8: social boost -/

/-- Claim C8: computeSocialBoost adds strength times the layer-decay
multiplier for each interacting mutual and caps the total at 2.0: the result
is always at most 2, adding an interacting mutual (of nonnegative strength)
never decreases it, and a single layer-1 mutual of strength 1 who interacted
yields exactly 1. -/
theorem socialBoost_props (bountyId : ℕ) (mutuals : List MutualConnection)
    (mi : List (String × List ℕ)) (m : MutualConnection) :
    computeSocialBoost bountyId mutuals mi ≤ 2 ∧
    (0 ≤ m.strength → bountyId ∈ lookupInteractions mi m.mutualId →
      computeSocialBoost bountyId mutuals mi ≤ computeSocialBoost bountyId (m :: mutuals) mi) ∧
    computeSocialBoost 5 [{ mutualId := "f", layer := 1, strength := 1 }] [("f", [5])] = 1 := by
  refine ⟨min_le_right _ _, ?_, ?_⟩
  · intro hs hint
    have hterm : 0 ≤ socialTerm bountyId mi m := by
      rw [socialTerm, if_pos hint]
      have hmul : (0 : ℚ) ≤ layerMultiplier m.layer := by
        rw [layerMultiplier]
        positivity
      exact mul_nonneg hs hmul
    have hraw : rawSocialBoost bountyId mutuals mi ≤ rawSocialBoost bountyId (m :: mutuals) mi := by
      simp only [rawSocialBoost, List.map_cons, List.sum_cons]
      linarith
    exact min_le_min hraw (le_refl 2)
  · norm_num [computeSocialBoost, rawSocialBoost, socialTerm, lookupInteractions,
      layerMultiplier, List.find?]

/-- Witness for socialBoost_props: one interacting layer-2 mutual of
strength 1 on top of no mutuals. -/
theorem socialBoost_props_witness :
    (0 ≤ (1 : ℚ) ∧ 5 ∈ lookupInteractions [("g", [5])] "g") ∧
      computeSocialBoost 5 [] [("g", [5])] ≤
        computeSocialBoost 5 [{ mutualId := "g", layer := 2, strength := 1 }] [("g", [5])] := by
  have h5 : (5 : ℕ) ∈ lookupInteractions [("g", [5])] "g" := by
    simp [lookupInteractions, List.find?]
  exact ⟨⟨by norm_num, h5⟩,
    (socialBoost_props 5 [] [("g", [5])] { mutualId := "g", layer := 2, strength := 1 }).2.1
      (by norm_num) h5⟩

/-! ## C9: tier filtering -/

/-- Claim C9 (amended): filterByAccessTier keeps exactly the bounties whose
tier level is at most the user's access-tier level; the basic-tier result is
contained in the middle-tier result, which is contained in the high-tier
result (containment, not strict containment); and a basic-tier user never
receives a middle- or high-tier bounty. -/
theorem filterByAccessTier_props (bounties : List BountyData) (b : BountyData) (u : Tier) :
    (b ∈ filterByAccessTier bounties u ↔ b ∈ bounties ∧ tierOrder b.tier ≤ tierOrder u) ∧
    (b ∈ filterByAccessTier bounties Tier.basic → b ∈ filterByAccessTier bounties Tier.middle) ∧
    (b ∈ filterByAccessTier bounties Tier.middle → b ∈ filterByAccessTier bounties Tier.high) ∧
    (b ∈ filterByAccessTier bounties Tier.basic → b.tier ≠ Tier.middle ∧ b.tier ≠ Tier.high) := by
  have hmem : ∀ t : Tier,
      b ∈ filterByAccessTier bounties t ↔ b ∈ bounties ∧ tierOrder b.tier ≤ tierOrder t := by
    intro t
    simp [filterByAccessTier, List.mem_filter]
  refine ⟨hmem u, ?_, ?_, ?_⟩
  · intro h
    rcases (hmem Tier.basic).1 h with ⟨hb, hle⟩
    exact (hmem Tier.middle).2 ⟨hb, le_trans hle (by norm_num [tierOrder])⟩
  · intro h
    rcases (hmem Tier.middle).1 h with ⟨hb, hle⟩
    exact (hmem Tier.high).2 ⟨hb, le_trans hle (by norm_num [tierOrder])⟩
  · intro h
    rcases (hmem Tier.basic).1 h with ⟨_, hle⟩
    cases hb : b.tier <;> rw [hb] at hle <;> simp_all [tierOrder]

/-- A basic-tier bounty used for concrete tier-filter evaluations. -/
def cxBountyBasic : BountyData :=
  { id := 9, title := "basic-only", description := "", price := 100, tier := Tier.basic
    status := "open", views := 0, submissions := 0, likes := 0, engagementScore := 0
    creatorId := none, claimedById := none, createdAt := 0, updatedAt := 0
    expiresAt := none, completedAt := none }

/-- Counterexample to claim C9 as stated: on the list holding a single
basic-tier bounty, the basic-tier result equals the middle-tier result, so
the basic-tier result is not a strict subset of the middle-tier one. -/
theorem filterByAccessTier_not_strict :
    filterByAccessTier [cxBountyBasic] Tier.basic = filterByAccessTier [cxBountyBasic] Tier.middle ∧
    ¬∃ b, b ∈ filterByAccessTier [cxBountyBasic] Tier.middle ∧
      b ∉ filterByAccessTier [cxBountyBasic] Tier.basic := by
  constructor
  · simp [filterByAccessTier, cxBountyBasic, tierOrder]
  · rintro ⟨b, hb, hnb⟩
    simp only [filterByAccessTier, cxBountyBasic, tierOrder] at hb hnb
    simp_all

/-- Witness for filterByAccessTier_props: the single basic bounty passes the
basic filter and therefore the middle filter. -/
theorem filterByAccessTier_props_witness :
    cxBountyBasic ∈ filterByAccessTier [cxBountyBasic] Tier.basic ∧
      cxBountyBasic ∈ filterByAccessTier [cxBountyBasic] Tier.middle := by
  have h : cxBountyBasic ∈ filterByAccessTier [cxBountyBasic] Tier.basic := by
    simp [filterByAccessTier, cxBountyBasic, tierOrder]
  exact ⟨h, (filterByAccessTier_props [cxBountyBasic] cxBountyBasic Tier.basic).2.1 h⟩

/-! ## Relevance score bounds -/

theorem userTagScoreOf_mem_or_zero (userTags : List UserTagScore) (g : ℕ) :
    userTagScoreOf userTags g = 0 ∨
      ∃ t ∈ userTags, userTagScoreOf userTags g = t.score := by
  rw [userTagScoreOf]
  cases hf : userTags.reverse.find? (fun t => t.tagId == g) with
  | none => exact Or.inl rfl
  | some t =>
    exact Or.inr ⟨t, List.mem_reverse.1 (List.mem_of_find?_eq_some hf), rfl⟩

theorem userTagScoreOf_bounds (userTags : List UserTagScore)
    (hu : ∀ t ∈ userTags, 1 ≤ t.score ∧ t.score ≤ 5) (g : ℕ) :
    0 ≤ userTagScoreOf userTags g ∧ userTagScoreOf userTags g ≤ 5 := by
  rcases userTagScoreOf_mem_or_zero userTags g with h | ⟨t, ht, h⟩
  · rw [h]
    norm_num
  · rw [h]
    obtain ⟨h1, h5⟩ := hu t ht
    exact ⟨by linarith, h5⟩

theorem totalRel_bounds (userTags : List UserTagScore) (bountyTags : List BountyTag)
    (hu : ∀ t ∈ userTags, 1 ≤ t.score ∧ t.score ≤ 5)
    (hw : ∀ bt ∈ bountyTags, 0 ≤ bt.weight) :
    0 ≤ totalRelWeight bountyTags ∧ 0 ≤ totalRelScore userTags bountyTags ∧
      totalRelScore userTags bountyTags ≤ 5 * totalRelWeight bountyTags := by
  induction bountyTags with
  | nil => simp [totalRelScore, totalRelWeight]
  | cons bt rest ih =>
    obtain ⟨ihW, ihS, ihB⟩ := ih (fun x hx => hw x (List.mem_cons_of_mem _ hx))
    have hbt : 0 ≤ bt.weight := hw bt (List.mem_cons_self _ _)
    obtain ⟨hu0, hu5⟩ := userTagScoreOf_bounds userTags hu bt.tagId
    have hterm0 : 0 ≤ userTagScoreOf userTags bt.tagId * bt.weight := mul_nonneg hu0 hbt
    have hterm5 : userTagScoreOf userTags bt.tagId * bt.weight ≤ 5 * bt.weight :=
      mul_le_mul_of_nonneg_right hu5 hbt
    simp only [totalRelScore, totalRelWeight, List.map_cons, List.sum_cons] at *
    refine ⟨by linarith, by linarith, by linarith⟩

/-- Shared bounds: under the documented data invariants (user scores 1-5,
nonnegative tag weights) the relevance score lies in [0, 10]. -/
theorem computeRelevanceScore_bounds (userTags : List UserTagScore)
    (bountyTags : List BountyTag)
    (hu : ∀ t ∈ userTags, 1 ≤ t.score ∧ t.score ≤ 5)
    (hw : ∀ bt ∈ bountyTags, 0 ≤ bt.weight) :
    0 ≤ computeRelevanceScore userTags bountyTags ∧
      computeRelevanceScore userTags bountyTags ≤ 10 := by
  obtain ⟨hW, hS, hSB⟩ := totalRel_bounds userTags bountyTags hu hw
  rw [computeRelevanceScore]
  split_ifs with h1 h2
  · norm_num
  · have hdiv0 : 0 ≤ totalRelScore userTags bountyTags / totalRelWeight bountyTags :=
      div_nonneg hS (le_of_lt h2)
    have hdiv5 : totalRelScore userTags bountyTags / totalRelWeight bountyTags ≤ 5 :=
      (div_le_iff₀ h2).2 (by linarith)
    exact ⟨by linarith, by linarith⟩
  · norm_num

/-! ## C6: relevance score -/

/-- Claim C6: computeRelevance is the weight-normalized dot product rescaled
by 2, it lies in [0, 10] (for user scores in 1-5 and weights in [0, 1]), it
is 0 on the empty tag list, and 0 whenever the total weight is 0. -/
theorem computeRelevance_props (userTags : List UserTagScore) (bountyTags : List BountyTag)
    (hu : ∀ t ∈ userTags, 1 ≤ t.score ∧ t.score ≤ 5)
    (hw : ∀ bt ∈ bountyTags, 0 ≤ bt.weight ∧ bt.weight ≤ 1) :
    (0 < totalRelWeight bountyTags →
      computeRelevanceScore userTags bountyTags =
        totalRelScore userTags bountyTags / totalRelWeight bountyTags * 2) ∧
    0 ≤ computeRelevanceScore userTags bountyTags ∧
    computeRelevanceScore userTags bountyTags ≤ 10 ∧
    computeRelevanceScore userTags [] = 0 ∧
    (totalRelWeight bountyTags = 0 → computeRelevanceScore userTags bountyTags = 0) := by
  have hw0 : ∀ bt ∈ bountyTags, 0 ≤ bt.weight := fun bt h => (hw bt h).1
  obtain ⟨hb0, hb10⟩ := computeRelevanceScore_bounds userTags bountyTags hu hw0
  refine ⟨?_, hb0, hb10, ?_, ?_⟩
  · intro hpos
    have hne : bountyTags ≠ [] := by
      rintro rfl
      simp [totalRelWeight] at hpos
    rw [computeRelevanceScore, if_neg hne, if_pos hpos]
  · rw [computeRelevanceScore]
    simp
  · intro h0
    rw [computeRelevanceScore]
    split_ifs with h1 h2
    · rfl
    · rw [h0] at h2
      exact absurd h2 (lt_irrefl 0)
    · rfl

/-- Witness inputs for the relevance theorems: a single perfectly matched
tag. -/
def wTags : List UserTagScore := [{ tagId := 1, tagName := "typescript", score := 5 }]

/-- Witness inputs for the relevance theorems: the bounty carries the same
tag at weight 1. -/
def wBountyTags : List BountyTag := [{ tagId := 1, weight := 1 }]

/-- Witness for computeRelevance_props at the single matched tag. -/
theorem computeRelevance_props_witness :
    ((∀ t ∈ wTags, 1 ≤ t.score ∧ t.score ≤ 5) ∧
      (∀ bt ∈ wBountyTags, 0 ≤ bt.weight ∧ bt.weight ≤ 1)) ∧
    (0 < totalRelWeight wBountyTags →
      computeRelevanceScore wTags wBountyTags =
        totalRelScore wTags wBountyTags / totalRelWeight wBountyTags * 2) ∧
    0 ≤ computeRelevanceScore wTags wBountyTags ∧
    computeRelevanceScore wTags wBountyTags ≤ 10 := by
  have hu : ∀ t ∈ wTags, 1 ≤ t.score ∧ t.score ≤ 5 := by
    intro t ht
    simp only [wTags, List.mem_singleton] at ht
    subst ht
    norm_num
  have hw : ∀ bt ∈ wBountyTags, 0 ≤ bt.weight ∧ bt.weight ≤ 1 := by
    intro bt hbt
    simp only [wBountyTags, List.mem_singleton] at hbt
    subst hbt
    norm_num
  obtain ⟨h1, h2, h3, _⟩ := computeRelevance_props wTags wBountyTags hu hw
  exact ⟨⟨hu, hw⟩, h1, h2, h3⟩

/-! ## Price affinity and social boost bounds -/

theorem computePriceAffinityTierAware_mem (bountyPrice : ℚ) (bountyTier : Tier)
    (avgPriceViewed : ℚ) (userAccessTier : Tier) :
    0 ≤ computePriceAffinityTierAware bountyPrice bountyTier avgPriceViewed userAccessTier ∧
      computePriceAffinityTierAware bountyPrice bountyTier avgPriceViewed userAccessTier ≤ 1 := by
  rw [computePriceAffinityTierAware]
  split_ifs with h1 h2
  · norm_num
  · norm_num
  · exact ⟨le_max_left 0 _, max_le (by norm_num) (min_le_left _ _)⟩

theorem socialTerm_nonneg (bountyId : ℕ) (mi : List (String × List ℕ))
    (m : MutualConnection) (hs : 0 ≤ m.strength) : 0 ≤ socialTerm bountyId mi m := by
  rw [socialTerm]
  split
  · have hmul : (0 : ℚ) ≤ layerMultiplier m.layer := by
      rw [layerMultiplier]
      positivity
    exact mul_nonneg hs hmul
  · exact le_refl 0

theorem computeSocialBoost_mem (bountyId : ℕ) (mutuals : List MutualConnection)
    (mi : List (String × List ℕ)) (hm : ∀ m ∈ mutuals, 0 ≤ m.strength) :
    0 ≤ computeSocialBoost bountyId mutuals mi ∧
      computeSocialBoost bountyId mutuals mi ≤ 2 := by
  have hraw : 0 ≤ rawSocialBoost bountyId mutuals mi := by
    rw [rawSocialBoost]
    apply List.sum_nonneg
    intro x hx
    rcases List.mem_map.1 hx with ⟨m, hmm, rfl⟩
    exact socialTerm_nonneg bountyId mi m (hm m hmm)
  exact ⟨le_min hraw (by norm_num), min_le_right _ _⟩

theorem lookupTags_weights (btm : List (ℕ × List BountyTag)) (i : ℕ)
    (hw : ∀ p ∈ btm, ∀ bt ∈ p.2, 0 ≤ bt.weight) :
    ∀ bt ∈ lookupTags btm i, 0 ≤ bt.weight := by
  rw [lookupTags]
  cases hf : btm.find? (fun p => p.1 == i) with
  | none => simp
  | some p => exact hw p (List.mem_of_find?_eq_some hf)

/-! ## C1: final score formula, range, and end-to-end scenario -/

/-- The end-to-end scenario's user: middle tier, average viewed price 500,
the single explicit tag typescript at score 5, no mutuals. -/
def scenInput : RecommendationInput :=
  { userId := "u1"
    userTags := [{ tagId := 1, tagName := "typescript", score := 5 }]
    userProfile := { avgPriceViewed := 500, engagementScore := 0, accessTier := Tier.middle }
    mutuals := [] }

/-- The end-to-end scenario's single open middle-tier bounty priced 600 with
engagement score 0. -/
def scenBounty : BountyData :=
  { id := 1, title := "Fix the build", description := "", price := 600, tier := Tier.middle
    status := "open", views := 0, submissions := 0, likes := 0, engagementScore := 0
    creatorId := none, claimedById := none, createdAt := 0, updatedAt := 0
    expiresAt := none, completedAt := none }

/-- The scenario's bounty-tag map: the bounty carries typescript at
weight 1.0. -/
def scenTagMap : List (ℕ × List BountyTag) := [(1, [{ tagId := 1, weight := 1 }])]

/-- Claim C1: every scored bounty's final score is the fixed weighted
combination (relevance/10)*0.55*10 + (socialBoost/2)*0.15*10 +
priceAffinity*0.20*10 + min(engagement/10,1)*0.10*10 and lies in [0, 10]
under the documented data invariants; and on the end-to-end scenario
getRecommendations returns relevance 10, social boost 0, price affinity 1
and final score exactly 7.5. -/
theorem finalScore_formula_and_range :
    (∀ (input : RecommendationInput) (btm : List (ℕ × List BountyTag))
      (mi : List (String × List ℕ)) (bounty : BountyData),
      (∀ t ∈ input.userTags, 1 ≤ t.score ∧ t.score ≤ 5) →
      (∀ p ∈ btm, ∀ bt ∈ p.2, 0 ≤ bt.weight) →
      (∀ m ∈ input.mutuals, 0 ≤ m.strength) →
      0 ≤ bounty.engagementScore →
      (scoreBounty input btm mi bounty).finalScore =
        (scoreBounty input btm mi bounty).relevanceScore / 10 * 0.55 * 10 +
        (scoreBounty input btm mi bounty).socialBoost / 2 * 0.15 * 10 +
        (scoreBounty input btm mi bounty).priceAffinity * 0.20 * 10 +
        min (bounty.engagementScore / 10) 1 * 0.10 * 10 ∧
      0 ≤ (scoreBounty input btm mi bounty).finalScore ∧
      (scoreBounty input btm mi bounty).finalScore ≤ 10) ∧
    (getRecommendations scenInput [scenBounty] scenTagMap []).map
        (fun o => (o.primary.relevanceScore, o.primary.socialBoost,
          o.primary.priceAffinity, o.primary.finalScore)) =
      some (10, 0, 1, 7.5) := by
  constructor
  · intro input btm mi bounty hu hw hm he
    obtain ⟨hr0, hr10⟩ := computeRelevanceScore_bounds input.userTags
      (lookupTags btm bounty.id) hu (lookupTags_weights btm bounty.id hw)
    obtain ⟨hs0, hs2⟩ := computeSocialBoost_mem bounty.id input.mutuals mi hm
    obtain ⟨hp0, hp1⟩ := computePriceAffinityTierAware_mem bounty.price bounty.tier
      input.userProfile.avgPriceViewed input.userProfile.accessTier
    have he0 : 0 ≤ min (bounty.engagementScore / 10) 1 :=
      le_min (div_nonneg he (by norm_num)) (by norm_num)
    have he1 : min (bounty.engagementScore / 10) 1 ≤ 1 := min_le_right _ _
    have hfs : (scoreBounty input btm mi bounty).finalScore =
        computeRelevanceScore input.userTags (lookupTags btm bounty.id) / 10 * 0.55 * 10 +
        computeSocialBoost bounty.id input.mutuals mi / 2 * 0.15 * 10 +
        computePriceAffinityTierAware bounty.price bounty.tier
          input.userProfile.avgPriceViewed input.userProfile.accessTier * 0.20 * 10 +
        min (bounty.engagementScore / 10) 1 * 0.10 * 10 := rfl
    refine ⟨rfl, ?_, ?_⟩
    · rw [hfs]
      have h1 : 0 ≤ computeRelevanceScore input.userTags (lookupTags btm bounty.id) / 10 *
          0.55 * 10 := by positivity
      have h2 : 0 ≤ computeSocialBoost bounty.id input.mutuals mi / 2 * 0.15 * 10 := by
        positivity
      nlinarith
    · rw [hfs]
      nlinarith
  · norm_num [getRecommendations, relFilteredOf, allScoredOf, accessibleOf, filterByAccessTier,
      scoreBounty, lookupTags, computeRelevanceScore, totalRelScore, totalRelWeight,
      userTagScoreOf, computeSocialBoost, rawSocialBoost, computePriceAffinityTierAware,
      computePriceHistoryScore, tierOrder, scenInput, scenBounty, scenTagMap, sortByFinalDesc,
      insertByFinalDesc, selectStretchBounty, MIN_RELEVANCE_THRESHOLD, WEIGHTS_RELEVANCE,
      WEIGHTS_SOCIAL, WEIGHTS_PRICE, WEIGHTS_ENGAGEMENT, List.filter, List.find?]

/-- Witness for finalScore_formula_and_range: the scenario's own scored
bounty satisfies the hypotheses and the 0-10 range. -/
theorem finalScore_formula_and_range_witness :
    ((∀ t ∈ scenInput.userTags, 1 ≤ t.score ∧ t.score ≤ 5) ∧
      (∀ p ∈ scenTagMap, ∀ bt ∈ p.2, 0 ≤ bt.weight) ∧
      (∀ m ∈ scenInput.mutuals, 0 ≤ m.strength) ∧
      0 ≤ scenBounty.engagementScore) ∧
    0 ≤ (scoreBounty scenInput scenTagMap [] scenBounty).finalScore ∧
    (scoreBounty scenInput scenTagMap [] scenBounty).finalScore ≤ 10 := by
  have hu : ∀ t ∈ scenInput.userTags, 1 ≤ t.score ∧ t.score ≤ 5 := by
    intro t ht
    simp only [scenInput, List.mem_singleton] at ht
    subst ht
    norm_num
  have hw : ∀ p ∈ scenTagMap, ∀ bt ∈ p.2, 0 ≤ bt.weight := by
    intro p hp bt hbt
    simp only [scenTagMap, List.mem_singleton] at hp
    subst hp
    simp only [List.mem_singleton] at hbt
    subst hbt
    norm_num
  have hm : ∀ m ∈ scenInput.mutuals, 0 ≤ m.strength := by
    intro m hmm
    simp [scenInput] at hmm
  have he : (0 : ℚ) ≤ scenBounty.engagementScore := by
    simp [scenBounty]
  obtain ⟨_, h0, h10⟩ :=
    (finalScore_formula_and_range).1 scenInput scenTagMap [] scenBounty hu hw hm he
  exact ⟨⟨hu, hw, hm, he⟩, h0, h10⟩

/-! ## C2: the stretch pick -/

/-- A second scenario bounty with no matching tags but a decent final score:
relevance 0, price affinity 1, engagement 10, final score 3.0. -/
def stretchBounty : BountyData :=
  { id := 2, title := "Try something new", description := "", price := 600
    tier := Tier.middle, status := "open", views := 0, submissions := 0, likes := 0
    engagementScore := 10, creatorId := none, claimedById := none, createdAt := 0
    updatedAt := 0, expiresAt := none, completedAt := none }

/-- Bounty-tag map for the stretch scenario: bounty 1 carries the user's tag,
bounty 2 carries an unrelated tag. -/
def c2TagMap : List (ℕ × List BountyTag) :=
  [(1, [{ tagId := 1, weight := 1 }]), (2, [{ tagId := 2, weight := 1 }])]

/-- Claim C2, evaluated on the code: bounty 2 scores relevance 0 (< 3.0) with
final score 3.0, strictly above 0.2 times the primary's 7.5, so by the claim
it should be the stretch pick; but getRecommendations returns bounty 1 as
both primary and secondary, because the stretch selection runs on the
already relevance-filtered list and its relevance < 3.0 test can never
succeed there. -/
theorem stretch_pick_never_fires :
    (getRecommendations scenInput [scenBounty, stretchBounty] c2TagMap []).map
        (fun o => (o.primary.bounty.id, o.secondary.bounty.id)) = some (1, 1) ∧
    (scoreBounty scenInput c2TagMap [] stretchBounty).relevanceScore < 3 ∧
    (scoreBounty scenInput c2TagMap [] scenBounty).finalScore * 0.2 <
      (scoreBounty scenInput c2TagMap [] stretchBounty).finalScore ∧
    stretchBounty.id = 2 := by
  have e12 : ((1 : ℕ) == 2) = false := rfl
  have e22 : ((2 : ℕ) == 2) = true := rfl
  have e11 : ((1 : ℕ) == 1) = true := rfl
  refine ⟨?_, ?_, ?_, rfl⟩ <;>
    norm_num [e12, e22, e11, getRecommendations, relFilteredOf, allScoredOf, accessibleOf,
      filterByAccessTier, scoreBounty, lookupTags, computeRelevanceScore, totalRelScore,
      totalRelWeight, userTagScoreOf, computeSocialBoost, rawSocialBoost,
      computePriceAffinityTierAware, computePriceHistoryScore, tierOrder, scenInput,
      scenBounty, stretchBounty, c2TagMap, sortByFinalDesc, insertByFinalDesc,
      selectStretchBounty, MIN_RELEVANCE_THRESHOLD, WEIGHTS_RELEVANCE, WEIGHTS_SOCIAL,
      WEIGHTS_PRICE, WEIGHTS_ENGAGEMENT, List.filter, List.find?]

/-! ## C3: relevance fallback and the fatal empty case -/

/-- Claim C3: getRecommendations fails exactly when no bounty is
tier-accessible; when bounties are accessible but all score below relevance
3.0 it returns a primary and secondary from the unfiltered scored set (the
primary maximal by final score) and signals the fallback with
debug.filteredByRelevance = 0; and filteredByRelevance = 0 only ever arises
from that fallback. -/
theorem getRecommendations_fallback_props (input : RecommendationInput)
    (allBounties : List BountyData) (btm : List (ℕ × List BountyTag))
    (mi : List (String × List ℕ)) :
    (getRecommendations input allBounties btm mi = none ↔
      accessibleOf input allBounties = []) ∧
    (accessibleOf input allBounties ≠ [] →
      (∀ sb ∈ allScoredOf input allBounties btm mi, sb.relevanceScore < 3) →
      ∃ out, getRecommendations input allBounties btm mi = some out ∧
        out.debug.filteredByRelevance = 0 ∧
        out.primary ∈ allScoredOf input allBounties btm mi ∧
        out.secondary ∈ allScoredOf input allBounties btm mi ∧
        ∀ sb ∈ allScoredOf input allBounties btm mi,
          sb.finalScore ≤ out.primary.finalScore) ∧
    (∀ out, getRecommendations input allBounties btm mi = some out →
      out.debug.filteredByRelevance = 0 →
      ∀ sb ∈ allScoredOf input allBounties btm mi, sb.relevanceScore < 3) := by
  refine ⟨?_, ?_, ?_⟩
  · cases h1 : sortByFinalDesc (relFilteredOf input allBounties btm mi) with
    | cons p rest =>
      simp only [getRecommendations, h1]
      constructor
      · intro h
        exact absurd h (by simp)
      · intro hacc
        have hF : relFilteredOf input allBounties btm mi = [] := by
          simp [relFilteredOf, allScoredOf, hacc]
        rw [hF] at h1
        simp [sortByFinalDesc] at h1
    | nil =>
      cases h2 : sortByFinalDesc (allScoredOf input allBounties btm mi) with
      | nil =>
        simp only [getRecommendations, h1, h2]
        have hA : allScoredOf input allBounties btm mi = [] :=
          (sortByFinalDesc_eq_nil_iff _).1 h2
        rw [allScoredOf, List.map_eq_nil_iff] at hA
        simp [hA]
      | cons fb rest =>
        simp only [getRecommendations, h1, h2]
        have hA : allScoredOf input allBounties btm mi ≠ [] := by
          intro h
          rw [h] at h2
          simp [sortByFinalDesc] at h2
        constructor
        · intro h
          exact absurd h (by simp)
        · intro hacc
          exact absurd (by rw [allScoredOf, hacc]; rfl) hA
  · intro hne hall
    have hF : relFilteredOf input allBounties btm mi = [] := by
      rw [relFilteredOf, List.filter_eq_nil_iff]
      intro sb hsb
      have h30 : MIN_RELEVANCE_THRESHOLD = 3 := by norm_num [MIN_RELEVANCE_THRESHOLD]
      simp only [decide_eq_true_eq, h30]
      exact not_le.2 (hall sb hsb)
    have h1 : sortByFinalDesc (relFilteredOf input allBounties btm mi) = [] := by
      rw [hF]
      rfl
    have hA : allScoredOf input allBounties btm mi ≠ [] := by
      rw [allScoredOf]
      intro h
      exact hne (List.map_eq_nil_iff.1 h)
    cases h2 : sortByFinalDesc (allScoredOf input allBounties btm mi) with
    | nil => exact absurd ((sortByFinalDesc_eq_nil_iff _).1 h2) hA
    | cons fb rest =>
      have hout : getRecommendations input allBounties btm mi = some
          { primary := fb
            secondary := rest.headD fb
            debug :=
              { totalCandidates := allBounties.length
                filteredByTier := (accessibleOf input allBounties).length
                filteredByRelevance := 0
                topRelevanceScores :=
                  ((fb :: rest).take 5).map (fun s => s.relevanceScore) } } := by
        simp only [getRecommendations, h1, h2]
      refine ⟨_, hout, rfl, ?_, ?_, ?_⟩
      · have : fb ∈ sortByFinalDesc (allScoredOf input allBounties btm mi) := by
          rw [h2]
          exact List.mem_cons_self _ _
        exact (mem_sortByFinalDesc _ _).1 this
      · cases hr : rest with
        | nil =>
          have : fb ∈ sortByFinalDesc (allScoredOf input allBounties btm mi) := by
            rw [h2]
            exact List.mem_cons_self _ _
          simpa using (mem_sortByFinalDesc _ _).1 this
        | cons s rest' =>
          have : s ∈ sortByFinalDesc (allScoredOf input allBounties btm mi) := by
            rw [h2, hr]
            simp
          simpa using (mem_sortByFinalDesc _ _).1 this
      · exact sortByFinalDesc_head_max _ fb rest h2
  · intro out hout h0 sb hsb
    cases h1 : sortByFinalDesc (relFilteredOf input allBounties btm mi) with
    | cons p rest =>
      simp only [getRecommendations, h1] at hout
      injection hout with hout'
      rw [← hout'] at h0
      simp at h0
    | nil =>
      have hF : relFilteredOf input allBounties btm mi = [] :=
        (sortByFinalDesc_eq_nil_iff _).1 h1
      rw [relFilteredOf, List.filter_eq_nil_iff] at hF
      have hsb' := hF sb hsb
      have h30 : MIN_RELEVANCE_THRESHOLD = 3 := by norm_num [MIN_RELEVANCE_THRESHOLD]
      simp only [decide_eq_true_eq, h30, not_le] at hsb'
      exact hsb'

/-- A bounty carrying no tags at all, so its relevance is 0. -/
def lonelyBounty : BountyData :=
  { id := 3, title := "Untagged", description := "", price := 600, tier := Tier.middle
    status := "open", views := 0, submissions := 0, likes := 0, engagementScore := 0
    creatorId := none, claimedById := none, createdAt := 0, updatedAt := 0
    expiresAt := none, completedAt := none }

/-- Witness for getRecommendations_fallback_props: one accessible untagged
bounty (relevance 0 < 3) triggers the fallback with filteredByRelevance 0. -/
theorem getRecommendations_fallback_props_witness :
    (accessibleOf scenInput [lonelyBounty] ≠ [] ∧
      ∀ sb ∈ allScoredOf scenInput [lonelyBounty] [] [], sb.relevanceScore < 3) ∧
    ∃ out, getRecommendations scenInput [lonelyBounty] [] [] = some out ∧
      out.debug.filteredByRelevance = 0 ∧
      out.primary ∈ allScoredOf scenInput [lonelyBounty] [] [] ∧
      out.secondary ∈ allScoredOf scenInput [lonelyBounty] [] [] ∧
      ∀ sb ∈ allScoredOf scenInput [lonelyBounty] [] [],
        sb.finalScore ≤ out.primary.finalScore := by
  have hacc : accessibleOf scenInput [lonelyBounty] ≠ [] := by
    simp [accessibleOf, filterByAccessTier, scenInput, lonelyBounty, tierOrder]
  have hall : ∀ sb ∈ allScoredOf scenInput [lonelyBounty] [] [], sb.relevanceScore < 3 := by
    intro sb hsb
    simp only [allScoredOf, accessibleOf, filterByAccessTier, scenInput, lonelyBounty,
      tierOrder, List.filter, List.map, List.mem_singleton] at hsb
    subst hsb
    norm_num [scoreBounty, lookupTags, computeRelevanceScore, totalRelScore, totalRelWeight,
      List.find?, lonelyBounty]
  exact ⟨⟨hacc, hall⟩,
    (getRecommendations_fallback_props scenInput [lonelyBounty] [] []).2.1 hacc hall⟩

/-! ## Behavior-tracking lemmas -/

theorem find?_map_preserving (tb : List TagBehavior) (h : TagBehavior → TagBehavior)
    (hpres : ∀ r, (h r).tagId = r.tagId) (g : ℕ) :
    (tb.map h).find? (fun b => b.tagId == g) =
      (tb.find? (fun b => b.tagId == g)).map h := by
  induction tb with
  | nil => rfl
  | cons r rest ih =>
    cases hr : (r.tagId == g) with
    | true =>
      have hr' : ((h r).tagId == g) = true := by rw [hpres r]; exact hr
      rw [List.map_cons]
      simp only [List.find?, hr, hr']
      rfl
    | false =>
      have hr' : ((h r).tagId == g) = false := by rw [hpres r]; exact hr
      rw [List.map_cons]
      simp only [List.find?, hr, hr']
      exact ih

theorem bumpTagBehavior_tagId (b : TagBehavior) (t : InteractionType) :
    (bumpTagBehavior b t).tagId = b.tagId := by
  cases t <;> rfl

theorem bumpTagBehavior_flag (b : TagBehavior) (t : InteractionType) :
    (bumpTagBehavior b t).divergenceDetected = b.divergenceDetected := by
  cases t <;> rfl

theorem newTagBehavior_tagId (g : ℕ) (t : InteractionType) :
    (newTagBehavior g t).tagId = g := by
  cases t <;> rfl

/-- Looking up a tag after updateTagBehavior: the record found equals either
the bump of the old record (same tag) or the old record itself. -/
theorem lookupTagBehavior_updateTagBehavior (tb : List TagBehavior) (g' : ℕ)
    (t : InteractionType) (g : ℕ) (b : TagBehavior)
    (hfind : lookupTagBehavior tb g = some b) :
    ∃ b', lookupTagBehavior (updateTagBehavior tb g' t) g = some b' ∧
      b'.divergenceDetected = b.divergenceDetected := by
  rw [updateTagBehavior]
  cases hf : lookupTagBehavior tb g' with
  | none =>
    refine ⟨b, ?_, rfl⟩
    rw [lookupTagBehavior] at hfind ⊢
    rw [List.find?_append, hfind]
    rfl
  | some c =>
    have hc : c.tagId = g' := by
      have := List.find?_some hf
      simpa using this
    have hpres : ∀ r : TagBehavior,
        (if r.tagId == g' then bumpTagBehavior c t else r).tagId = r.tagId := by
      intro r
      split
      · rename_i hr
        have hr2 : r.tagId = g' := by simpa using hr
        rw [bumpTagBehavior_tagId, hc, hr2]
      · rfl
    have hmap := find?_map_preserving tb _ hpres g
    rw [lookupTagBehavior] at hfind
    rw [lookupTagBehavior, hmap, hfind]
    by_cases hbg : (b.tagId == g') = true
    · have hbg' : b.tagId = g' := by simpa using hbg
      have hbgg : b.tagId = g := by
        have := List.find?_some hfind
        simpa using this
      have hgg' : g = g' := by rw [← hbgg, hbg']
      subst hgg'
      have hcb : c = b := by
        rw [lookupTagBehavior] at hf
        rw [hf] at hfind
        exact (Option.some.injEq _ _ ▸ hfind)
      subst hcb
      exact ⟨bumpTagBehavior c t, by simp [hbg'], bumpTagBehavior_flag c t⟩
    · have hbg2 : ¬b.tagId = g' := by simpa using hbg
      exact ⟨b, by simp [hbg2], rfl⟩

/-- Folding updateTagBehavior over a bounty's tags never changes an existing
record's divergence flag. -/
theorem lookupTagBehavior_foldl_update (t : InteractionType) (gs : List ℕ) :
    ∀ (tb : List TagBehavior) (g : ℕ) (b : TagBehavior),
      lookupTagBehavior tb g = some b →
      ∃ b', lookupTagBehavior (gs.foldl (fun tb g' => updateTagBehavior tb g' t) tb) g =
          some b' ∧ b'.divergenceDetected = b.divergenceDetected := by
  induction gs with
  | nil => exact fun tb g b h => ⟨b, h, rfl⟩
  | cons g0 rest ih =>
    intro tb g b h
    obtain ⟨b1, h1, hflag1⟩ := lookupTagBehavior_updateTagBehavior tb g0 t g b h
    obtain ⟨b2, h2, hflag2⟩ := ih _ g b1 h1
    exact ⟨b2, by simpa using h2, by rw [hflag2, hflag1]⟩

theorem divergeRecord_tagId (ex : List (ℕ × ℚ)) (b : TagBehavior) :
    (divergeRecord ex b).tagId = b.tagId := by
  rw [divergeRecord]
  cases hs : explicitScoreOf ex b.tagId <;> dsimp only <;> split_ifs <;> rfl

theorem divergeRecord_flag_true (ex : List (ℕ × ℚ)) (b : TagBehavior)
    (h : b.divergenceDetected = true) : (divergeRecord ex b).divergenceDetected = true := by
  rw [divergeRecord]
  cases hs : explicitScoreOf ex b.tagId <;> dsimp only <;> split_ifs <;>
    first
    | rfl
    | exact h

theorem lookupTagBehavior_checkDivergence (ex : List (ℕ × ℚ)) (tb : List TagBehavior)
    (g : ℕ) :
    lookupTagBehavior (checkDivergence ex tb) g =
      (lookupTagBehavior tb g).map (divergeRecord ex) := by
  rw [lookupTagBehavior, lookupTagBehavior, checkDivergence]
  exact find?_map_preserving tb _ (divergeRecord_tagId ex) g

/-! ## C10: the divergence flag is monotone under behavior events -/

/-- Claim C10: recording a behavior event never clears a set divergence flag
(updateTagBehavior preserves it and checkDivergence only ever writes true),
while the explicit clearDivergence operation resets it to false. -/
theorem divergence_flag_monotone (ex : List (ℕ × ℚ)) (tagIds : List ℕ) (price : ℚ)
    (t : InteractionType) (st : BehaviorState) (g : ℕ) (b : TagBehavior)
    (hfind : lookupTagBehavior st.tagBehaviors g = some b)
    (hflag : b.divergenceDetected = true) :
    (∃ b', lookupTagBehavior (trackBehavior ex tagIds price t st).tagBehaviors g = some b' ∧
      b'.divergenceDetected = true) ∧
    (∃ b2, lookupTagBehavior (clearDivergence st.tagBehaviors g) g = some b2 ∧
      b2.divergenceDetected = false) := by
  constructor
  · obtain ⟨b1, h1, hflag1⟩ := lookupTagBehavior_foldl_update t tagIds st.tagBehaviors g b hfind
    refine ⟨divergeRecord ex b1, ?_, ?_⟩
    · have : (trackBehavior ex tagIds price t st).tagBehaviors =
          checkDivergence ex (tagIds.foldl (fun tb g' => updateTagBehavior tb g' t)
            st.tagBehaviors) := rfl
      rw [this, lookupTagBehavior_checkDivergence, h1]
      rfl
    · exact divergeRecord_flag_true ex b1 (by rw [hflag1, hflag])
  · have hpres : ∀ r : TagBehavior,
        (if r.tagId == g then { r with divergenceDetected := false } else r).tagId =
          r.tagId := by
      intro r
      split <;> rfl
    have hmap := find?_map_preserving st.tagBehaviors _ hpres g
    have hbg : (b.tagId == g) = true := by
      have := List.find?_some hfind
      simpa using this
    refine ⟨{ b with divergenceDetected := false }, ?_, rfl⟩
    rw [clearDivergence, lookupTagBehavior, hmap]
    rw [lookupTagBehavior] at hfind
    rw [hfind]
    have hbg2 : b.tagId = g := by simpa using hbg
    simp [hbg2]

/-- A single already-flagged behavior record, for the C10 witness. -/
def flaggedRecord : TagBehavior :=
  { tagId := 4, viewCount := 3, viewScore := 0.6, likeCount := 0, likeScore := 0
    submitCount := 0, submitScore := 0, completeCount := 0, completeScore := 0
    implicitScore := 3.2, lastExplicitScore := some 0, divergenceDetected := true }

/-- The behavior state holding just the flagged record. -/
def flaggedState : BehaviorState :=
  { tagBehaviors := [flaggedRecord], priceBehavior := none, blendConfig := none }

/-- Witness for divergence_flag_monotone: a flagged record survives a view
event on its own tag, and clearDivergence resets it. -/
theorem divergence_flag_monotone_witness :
    (lookupTagBehavior flaggedState.tagBehaviors 4 = some flaggedRecord ∧
      flaggedRecord.divergenceDetected = true) ∧
    (∃ b', lookupTagBehavior
        (trackBehavior [] [4] 100 InteractionType.view flaggedState).tagBehaviors 4 =
          some b' ∧ b'.divergenceDetected = true) ∧
    (∃ b2, lookupTagBehavior (clearDivergence flaggedState.tagBehaviors 4) 4 = some b2 ∧
      b2.divergenceDetected = false) := by
  have hfind : lookupTagBehavior flaggedState.tagBehaviors 4 = some flaggedRecord := rfl
  have hflag : flaggedRecord.divergenceDetected = true := rfl
  obtain ⟨h1, h2⟩ := divergence_flag_monotone [] [4] 100 InteractionType.view
    flaggedState 4 flaggedRecord hfind hflag
  exact ⟨⟨hfind, hflag⟩, h1, h2⟩

/-! ## C4: per-type scores and the implicit score -/

/-- Claim C4 (amended): after an event on an existing (user, tag) record the
event type's counter is incremented, its score is min(10, count x baseWeight
x 2), and the implicitScore is recomputed as the capped weighted blend of
the four per-type scores; but on the record-creating first event the
implicitScore is set to the initial per-type score baseWeight x 2 itself,
not to the weighted blend. -/
theorem updateTagBehavior_score_law (st : List TagBehavior) (g : ℕ) (t : InteractionType) :
    (∀ b, lookupTagBehavior st g = some b →
      lookupTagBehavior (updateTagBehavior st g t) g = some (bumpTagBehavior b t) ∧
      countOf (bumpTagBehavior b t) t = countOf b t + 1 ∧
      scoreOf (bumpTagBehavior b t) t =
        min 10 (((countOf b t + 1 : ℕ) : ℚ) * BEHAVIOR_WEIGHTS t * 2) ∧
      (bumpTagBehavior b t).implicitScore =
        min 10 ((bumpTagBehavior b t).viewScore * 0.1 +
          (bumpTagBehavior b t).likeScore * 0.2 +
          (bumpTagBehavior b t).submitScore * 0.3 +
          (bumpTagBehavior b t).completeScore * 0.4)) ∧
    (lookupTagBehavior st g = none →
      lookupTagBehavior (updateTagBehavior st g t) g = some (newTagBehavior g t) ∧
      countOf (newTagBehavior g t) t = 1 ∧
      scoreOf (newTagBehavior g t) t = min 10 ((1 : ℚ) * BEHAVIOR_WEIGHTS t * 2) ∧
      (newTagBehavior g t).implicitScore = BEHAVIOR_WEIGHTS t * 2) := by
  constructor
  · intro b hb
    have hbg : b.tagId = g := by
      rw [lookupTagBehavior] at hb
      simpa using List.find?_some hb
    refine ⟨?_, by cases t <;> rfl, by cases t <;> rfl, by cases t <;> rfl⟩
    rw [updateTagBehavior, hb]
    have hpres : ∀ r : TagBehavior,
        (if r.tagId == g then bumpTagBehavior b t else r).tagId = r.tagId := by
      intro r
      split
      · rename_i hr
        have hr2 : r.tagId = g := by simpa using hr
        rw [bumpTagBehavior_tagId, hbg, hr2]
      · rfl
    rw [lookupTagBehavior, find?_map_preserving st _ hpres g]
    rw [lookupTagBehavior] at hb
    rw [hb]
    simp [hbg]
  · intro hnone
    have hpred : ((newTagBehavior g t).tagId == g) = true := by
      rw [newTagBehavior_tagId]
      simp
    refine ⟨?_, by cases t <;> rfl, ?_, by cases t <;> rfl⟩
    · rw [updateTagBehavior, hnone, lookupTagBehavior]
      rw [lookupTagBehavior] at hnone
      rw [List.find?_append, hnone]
      show List.find? (fun b => b.tagId == g) [newTagBehavior g t] =
        some (newTagBehavior g t)
      simp [List.find?, hpred]
    · cases t <;> norm_num [newTagBehavior, setCountScore, scoreOf, BEHAVIOR_WEIGHTS]

/-- Witness for updateTagBehavior_score_law: the very first view event on
tag 3 over the empty behavior table. -/
theorem updateTagBehavior_score_law_witness :
    lookupTagBehavior ([] : List TagBehavior) 3 = none ∧
    lookupTagBehavior (updateTagBehavior [] 3 InteractionType.view) 3 =
      some (newTagBehavior 3 InteractionType.view) ∧
    countOf (newTagBehavior 3 InteractionType.view) InteractionType.view = 1 ∧
    (newTagBehavior 3 InteractionType.view).implicitScore =
      BEHAVIOR_WEIGHTS InteractionType.view * 2 := by
  have hnone : lookupTagBehavior ([] : List TagBehavior) 3 = none := rfl
  obtain ⟨h1, h2, _, h4⟩ :=
    (updateTagBehavior_score_law [] 3 InteractionType.view).2 hnone
  exact ⟨hnone, h1, h2, h4⟩

/-- Counterexample to claim C4 as stated: after the very first view event on
a fresh (user, tag) pair the stored implicitScore is 0.2 (the initial
per-type score), while the claimed weighted-blend formula evaluates to 0.02. -/
theorem firstEvent_implicitScore_not_blended :
    (lookupTagBehavior (updateTagBehavior [] 7 InteractionType.view) 7).map
        (fun b => b.implicitScore) = some 0.2 ∧
    (lookupTagBehavior (updateTagBehavior [] 7 InteractionType.view) 7).map
        (fun b => min 10 (b.viewScore * 0.1 + b.likeScore * 0.2 + b.submitScore * 0.3 +
          b.completeScore * 0.4)) = some 0.02 ∧
    (0.2 : ℚ) ≠ 0.02 := by
  refine ⟨?_, ?_, by norm_num⟩ <;>
    norm_num [updateTagBehavior, lookupTagBehavior, newTagBehavior, setCountScore,
      BEHAVIOR_WEIGHTS, List.find?]

/-! ## C7: three-layer mutual expansion -/

/-- Claim C7 (amended): every entry of the three-layer expansion carries its
discovery layer 1, 2 or 3; layer-2 entries exclude the user and all layer-1
ids and carry strength edge x 0.5; layer-3 entries exclude the user and all
layer-1 and layer-2 ids and carry strength edge x 0.25; decayed strengths
never exceed the underlying edge strength (for nonnegative strengths); and
no entry is the user, provided the stored adjacency has no self-edge at the
user.  (Entries within one layer may still repeat an id.) -/
theorem getMutualsThreeLayers_props (u : String) (edges : List MutualEdge)
    (m : MutualConnection) (hm : m ∈ getMutualsThreeLayers u edges) :
    ((∀ e ∈ edges, ¬(e.userId = u ∧ e.mutualId = u)) → m.mutualId ≠ u) ∧
    (m.layer = 1 ∨ m.layer = 2 ∨ m.layer = 3) ∧
    (m.layer = 2 ∨ m.layer = 3 → m.mutualId ≠ u) ∧
    (m.layer = 1 →
      ∃ e ∈ layer1Edges u edges, e.mutualId = m.mutualId ∧ m.strength = e.strength) ∧
    (m.layer = 2 → m.mutualId ∉ layer1Ids u edges ∧
      ∃ e ∈ layer2RawEdges u edges, e.mutualId = m.mutualId ∧
        m.strength = e.strength * 0.5 ∧ (0 ≤ e.strength → m.strength ≤ e.strength)) ∧
    (m.layer = 3 → m.mutualId ∉ layer1Ids u edges ∧ m.mutualId ∉ layer2IdsOf u edges ∧
      ∃ e ∈ layer3RawEdges u edges, e.mutualId = m.mutualId ∧
        m.strength = e.strength * 0.25 ∧ (0 ≤ e.strength → m.strength ≤ e.strength)) := by
  rw [getMutualsThreeLayers] at hm
  split at hm
  · simp at hm
  · rcases List.mem_append.1 hm with hm12 | hm3
    · rcases List.mem_append.1 hm12 with hm1 | hm2
      · rcases List.mem_map.1 hm1 with ⟨e, he, rfl⟩
        have he2 : e ∈ edges ∧ e.userId = u := by
          simpa [layer1Edges, List.mem_filter] using he
        refine ⟨?_, Or.inl rfl, ?_, ?_, ?_, ?_⟩
        · intro hself heq
          exact hself e he2.1 ⟨he2.2, heq⟩
        · intro h
          rcases h with h | h <;> simp at h
        · intro _
          exact ⟨e, he, rfl, rfl⟩
        · intro h
          simp at h
        · intro h
          simp at h
      · rcases List.mem_map.1 hm2 with ⟨e, he, rfl⟩
        obtain ⟨heraw, hecond⟩ := List.mem_filter.1 he
        have hcond : e.mutualId ∉ layer1Ids u edges ∧ e.mutualId ≠ u := by
          simpa using hecond
        refine ⟨fun _ => hcond.2, Or.inr (Or.inl rfl), fun _ => hcond.2, ?_, ?_, ?_⟩
        · intro h
          simp at h
        · intro _
          refine ⟨hcond.1, e, heraw, rfl, rfl, ?_⟩
          intro hs
          have : e.strength * 0.5 ≤ e.strength * 1 := by
            apply mul_le_mul_of_nonneg_left _ hs
            norm_num
          simpa using this
        · intro h
          simp at h
    · rcases List.mem_map.1 hm3 with ⟨e, he, rfl⟩
      obtain ⟨heraw, hecond⟩ := List.mem_filter.1 he
      have hcond : e.mutualId ∉ layer1Ids u edges ∧ e.mutualId ∉ layer2IdsOf u edges ∧
          e.mutualId ≠ u := by
        simpa using hecond
      refine ⟨fun _ => hcond.2.2, Or.inr (Or.inr rfl), fun _ => hcond.2.2, ?_, ?_, ?_⟩
      · intro h
        simp at h
      · intro h
        simp at h
      · intro _
        refine ⟨hcond.1, hcond.2.1, e, heraw, rfl, rfl, ?_⟩
        intro hs
        have : e.strength * 0.25 ≤ e.strength * 1 := by
          apply mul_le_mul_of_nonneg_left _ hs
          norm_num
        simpa using this

/-- The adjacency used for the duplicate counterexample: the user has two
direct mutuals a and b who share a further mutual x. -/
def dupEdges : List MutualEdge :=
  [{ userId := "u", mutualId := "a", layer := 1, strength := 1 },
    { userId := "u", mutualId := "b", layer := 1, strength := 1 },
    { userId := "a", mutualId := "x", layer := 1, strength := 1 },
    { userId := "b", mutualId := "x", layer := 1, strength := 1 }]

/-- Counterexample to claim C7 as stated: the expansion of dupEdges lists
the id x twice (once via a, once via b, both at layer 2), so the returned
list is not duplicate-free. -/
theorem mutuals_duplicate_within_layer :
    ((getMutualsThreeLayers "u" dupEdges).map (fun m => m.mutualId)).count "x" = 2 ∧
    ¬((getMutualsThreeLayers "u" dupEdges).map (fun m => m.mutualId)).Nodup := by
  constructor
  · rfl
  · decide

/-- Witness for getMutualsThreeLayers_props: the direct mutual a of the
duplicate-counterexample adjacency. -/
theorem getMutualsThreeLayers_props_witness :
    ((⟨"a", 1, 1⟩ : MutualConnection) ∈ getMutualsThreeLayers "u" dupEdges ∧
      (∀ e ∈ dupEdges, ¬(e.userId = "u" ∧ e.mutualId = "u"))) ∧
    (⟨"a", 1, 1⟩ : MutualConnection).mutualId ≠ "u" := by
  have hm : (⟨"a", 1, 1⟩ : MutualConnection) ∈ getMutualsThreeLayers "u" dupEdges := by
    rw [getMutualsThreeLayers]
    split
    · rename_i h
      exact absurd h (by decide)
    · exact List.mem_append.2 (Or.inl (List.mem_append.2 (Or.inl (by decide))))
  have hself : ∀ e ∈ dupEdges, ¬(e.userId = "u" ∧ e.mutualId = "u") := by decide
  exact ⟨⟨hm, hself⟩,
    (getMutualsThreeLayers_props "u" dupEdges ⟨"a", 1, 1⟩ hm).1 hself⟩

end RecEngine
